import Mathlib

/-!
# Verification of the goFish batch-processing core

Shallow embedding of the goFish repository's batch orchestration (`main`
in the findFish driver), the event-detector interval framework declared in
`EventDetector.h`, and the Box storage client's HTTP request / download
paths (`Box.go`).  Each definition is annotated with the source location
it embeds.
-/

/-- A file-system path, as the character sequence of a C++ `std::string`. -/
abbrev FPath := List Char

/-- Convert a Lean string literal into the `FPath` character-list embedding. -/
def pstr (s : String) : FPath := s.data

/-- The value of `std::string::npos`, returned by failed searches on a 64-bit
`size_t`. -/
def NPOS : Nat := 2 ^ 64 - 1

/-- First index at which `pat` occurs inside `s`, if any
(`std::string::find` semantics: the empty pattern matches at index 0). -/
def strFind (s pat : FPath) : Option Nat :=
  (List.range (s.length + 1)).find? (fun k => pat.isPrefixOf (s.drop k))

/-- Embedding of `s.find(pat)` on a C++ `std::string`: index of the first occurrence,
`NPOS` when there is none. -/
def cppFind (s pat : FPath) : Nat :=
  match strFind s pat with
  | some k => k
  | none => NPOS

/-- Embedding of `s.find_last_of(cs)`: largest index whose character belongs to `cs`,
`NPOS` when there is none. -/
def cppFindLastOf (s : FPath) (cs : FPath) : Nat :=
  ((List.range s.length).filter (fun k => cs.contains (s.getD k 'a'))).getLastD NPOS

/-- Embedding of `s.substr(pos, count)`: throws `std::out_of_range` (here `none`) when
`pos > s.length`; the count is clamped to the remaining length. -/
def cppSubstr (s : FPath) (pos count : Nat) : Option FPath :=
  if pos ≤ s.length then some ((s.drop pos).take count) else none

/-- Embedding of `v.find(pat) != std::string::npos`: `pat` occurs somewhere in `v`. -/
def containsSub (v pat : FPath) : Bool :=
  (strFind v pat).isSome

/-- The identifier derived from a JSON artifact path (main, lines 79-80):
`jf = json.substr(json.find("DE_") + 3, json.length())` followed by
`jf = jf.substr(0, jf.find_last_of("."))`.  The `+ 3` happens in `size_t`
arithmetic, so a failed find wraps `NPOS + 3` to `2`; `none` models the
`std::out_of_range` exception when the start position exceeds the length. -/
def deriveId (jf : FPath) : Option FPath := do
  let s1 ← cppSubstr jf ((cppFind jf (pstr "DE_") + 3) % 2 ^ 64) jf.length
  cppSubstr s1 0 (cppFindLastOf s1 (pstr "."))

/-- The inner erase loop of main (lines 82-87): remove the first video in
list order whose path contains `ident`, then `break`. -/
def eraseFirstMatching (ident : FPath) : List FPath → List FPath
  | [] => []
  | v :: vs => if containsSub v ident then vs else v :: eraseFirstMatching ident vs

/-- The artifact-exclusion loop of main (lines 77-88): for each JSON file,
derive its identifier and erase the first matching video.  `none` models
the uncaught exception from `deriveId`. -/
def excludeProcessed (jsonFiles : List FPath) (videoFiles : List FPath) :
    Option (List FPath) :=
  jsonFiles.foldlM
    (fun vids jf => (deriveId jf).map (fun ident => eraseFirstMatching ident vids))
    videoFiles

/-- Lexicographic comparison of two paths, as `std::string::operator<`
extended to `≤` (the total preorder `std::sort` orders by). -/
def lexLe : FPath → FPath → Bool
  | [], _ => true
  | _ :: _, [] => false
  | a :: as, b :: bs =>
    if a.toNat < b.toNat then true
    else if b.toNat < a.toNat then false
    else lexLe as bs

/-- The ordering relation used by `std::sort(video_files.begin(), ...)`. -/
def lexLeP (a b : FPath) : Prop := lexLe a b = true

instance : DecidableRel lexLeP :=
  fun a b => inferInstanceAs (Decidable (lexLe a b = true))

/-- Embedding of `std::sort` on the video list (main, lines 68 and 89): the result is
the sorted permutation of the input. -/
def sortPaths (l : List FPath) : List FPath :=
  List.insertionSort lexLeP l

/-- The candidate list main pairs from (lines 66-89): sort the scanned
videos, erase per-artifact matches, sort again. -/
def mainCandidates (jsonFiles videoFiles : List FPath) : Option (List FPath) :=
  (excludeProcessed jsonFiles (sortPaths videoFiles)).map sortPaths

/-- The candidate list as the specification words it: exclude *every*
video whose derived identifier already has a corresponding artifact, then
order lexicographically.  Stated for comparison with `mainCandidates`. -/
def specCandidates (jsonFiles videoFiles : List FPath) : List FPath :=
  sortPaths (videoFiles.filter (fun v =>
    !(jsonFiles.any (fun jf =>
      match deriveId jf with
      | some ident => containsSub v ident
      | none => false))))

/-- The outcome of running one `Processor` job on a pair of videos: either
the constructor or `ProcessVideos` throws (caught at main lines 123-126),
or the job completes and leaves its `Success` flag. -/
inductive JobOutcome where
  | throws
  | completes (success : Bool)
deriving DecidableEq, Repr

/-- The two paths handed to `Processor` at loop index `i`
(main lines 99 and 114): `video_files[i]` and
`video_files[(i + 1) % video_files.size()]`. -/
def pairFiles (files : List FPath) (i : Nat) : List FPath :=
  [files.getD i [], files.getD ((i + 1) % files.length) []]

/-- The `std::remove` calls issued for the job at index `i` in the
sequential loop (main lines 117-121): both pair members when
`p.Success`, nothing on failure or on a caught exception. -/
def delAt (files : List FPath) (beh : Nat → JobOutcome) (i : Nat) : List FPath :=
  match beh i with
  | JobOutcome.completes true => pairFiles files i
  | _ => []

/-- The index sequence of the sequential batch loop
`for (size_t i = 0; i < video_files.size() / 2; i += 2)` (main line 111):
all even `i` below `m = video_files.size() / 2`. -/
def seqIdx (m : Nat) : List Nat :=
  (List.range ((m + 1) / 2)).map (fun k => 2 * k)

/-- One pass of the sequential batch loop (main lines 111-126): the list
of processed jobs, each tagged with its own outcome, and the
concatenated list of removed source files. -/
def seqRun (files : List FPath) (beh : Nat → JobOutcome) :
    List (Nat × JobOutcome) × List FPath :=
  ((seqIdx (files.length / 2)).map (fun i => (i, beh i)),
   (seqIdx (files.length / 2)).flatMap (delAt files beh))

/-- The video pairs handed to `Processor` by the sequential loop
(main lines 111-114). -/
def seqPairsOf (files : List FPath) : List (FPath × FPath) :=
  (seqIdx (files.length / 2)).map
    (fun i => (files.getD i [], files.getD ((i + 1) % files.length) []))

/-- The video pairs handed to the concurrently running `Processor` jobs in
THREADED mode (main lines 96-100):
`for (size_t i = 0; i < video_files.size() / 2; i++)` with pair
`(video_files[i], video_files[(i + 1) % video_files.size()])`. -/
def threadedPairs (files : List FPath) : List (FPath × FPath) :=
  (List.range (files.length / 2)).map
    (fun i => (files.getD i [], files.getD ((i + 1) % files.length) []))

/-- The `std::remove` calls issued after the THREADED join loop
(main lines 106-109): every file of the batch, unconditionally, as soon
as the batch holds more than one video. -/
def threadedRemovals (files : List FPath) : List FPath :=
  if 1 < files.length then files else []

/-- One THREADED batch (main lines 93-109): the jobs spawned with their
outcomes, and the files removed after the joins. -/
def threadedBatch (files : List FPath) (beh : Nat → JobOutcome) :
    List (Nat × JobOutcome) × List FPath :=
  ((List.range (files.length / 2)).map (fun i => (i, beh i)),
   threadedRemovals files)

/-- Whether two jobs were handed a common video path. -/
def sharesPath (p q : FPath × FPath) : Bool :=
  p.1 = q.1 || p.1 = q.2 || p.2 = q.1 || p.2 = q.2

/-- Pairwise disjointness of the video pairs handed to a batch of jobs. -/
def jobsDisjoint : List (FPath × FPath) → Bool
  | [] => true
  | p :: ps => ps.all (fun q => !sharesPath p q) && jobsDisjoint ps

/-- The flattened list of video paths used as pair members by a batch. -/
def usedPaths (ps : List (FPath × FPath)) : List FPath :=
  ps.flatMap (fun p => [p.1, p.2])

/-- Observable events of one THREADED batch, in program order. -/
inductive ThreadEvent where
  | spawn (i : Nat)
  | join (i : Nat)
  | removeFile (p : FPath)
deriving DecidableEq, Repr

/-- Event trace of one THREADED batch (main lines 93-109): the spawn loop
creates one thread per pair index `i < size / 2`; the join loop joins
exactly the joinable (assigned) threads; the removal loop then removes
every file when more than one video is present. -/
def threadedTrace (files : List FPath) : List ThreadEvent :=
  (((List.range (files.length / 2)).map ThreadEvent.spawn) ++
   ((List.range (files.length / 2)).map ThreadEvent.join)) ++
  (if 1 < files.length then files.map ThreadEvent.removeFile else [])

/-- Is the event a source-file removal? -/
def isRemoveEvent : ThreadEvent → Bool
  | ThreadEvent.removeFile _ => true
  | _ => false

/-- Result of one iteration of the outer do-while loop of main
(lines 62-130). -/
inductive BatchResult where
  | exitLoop
  | crashed
  | nextIter (dir : List FPath)
deriving DecidableEq, Repr

/-- One iteration of the outer do-while loop of main (lines 62-130),
sequential mode, on the current video-directory contents `dir`: scan and
sort the videos (lines 67-68), exit when none remain (lines 71-72),
exclude artifact-matched videos (lines 74-89, `crashed` when the
substring extraction throws), run the sequential batch, and delete the
removed files from the directory.  `jsonFiles` holds the artifact paths
visible during the iteration; a batch that runs no job writes none. -/
def batchStep (jsonFiles : List FPath) (beh : Nat → JobOutcome)
    (dir : List FPath) : BatchResult :=
  let video_files := sortPaths dir
  if video_files.isEmpty then BatchResult.exitLoop
  else
    match excludeProcessed jsonFiles video_files with
    | none => BatchResult.crashed
    | some vids =>
      let cands := sortPaths vids
      let deleted := (seqRun cands beh).2
      BatchResult.nextIter (dir.filter (fun f => !(deleted.contains f)))

/-- Run the do-while loop for at most `k` iterations: `some r` when the
loop finishes with result `r` within `k` iterations, `none` when it is
still iterating. -/
def loopRun (jsonFiles : List FPath) (beh : Nat → JobOutcome) :
    Nat → List FPath → Option BatchResult
  | 0, _ => none
  | Nat.succ k, dir =>
    match batchStep jsonFiles beh dir with
    | BatchResult.nextIter dir2 => loopRun jsonFiles beh k dir2
    | r => some r

/-- The do-while loop eventually stops iterating (normally or by crash). -/
def loopExits (jsonFiles : List FPath) (beh : Nat → JobOutcome)
    (dir : List FPath) : Prop :=
  ∃ k r, loopRun jsonFiles beh k dir = some r

/-- The do-while loop eventually exits by finding no remaining videos. -/
def reachesEmpty (jsonFiles : List FPath) (beh : Nat → JobOutcome)
    (dir : List FPath) : Prop :=
  ∃ k, loopRun jsonFiles beh k dir = some BatchResult.exitLoop

/-- A job behavior in which every `Processor` run completes successfully. -/
def behAllSuccess : Nat → JobOutcome := fun _ => JobOutcome.completes true

/-- A job behavior in which the job at index 0 throws (e.g. a source
fails to open) and every other job completes successfully. -/
def behFailFirst : Nat → JobOutcome :=
  fun j => if j = 0 then JobOutcome.throws else JobOutcome.completes true

/-- A concrete batch of five lexicographically sorted video files. -/
def videoBatch5 : List FPath :=
  [pstr "a.mp4", pstr "b.mp4", pstr "c.mp4", pstr "d.mp4", pstr "e.mp4"]

/-- A concrete batch of four lexicographically sorted video files. -/
def videoBatch4 : List FPath :=
  [pstr "a.mp4", pstr "b.mp4", pstr "c.mp4", pstr "d.mp4"]

/-- An activity event as declared in `EventDetector.h` (lines 94-126):
a unique id and the inclusive `[start_frame, end_frame]` interval the
event spans (`_start_frame`, `_end_frame` of `EventBuilder`). -/
structure ActivityEvent where
  id : Int
  start_frame : Int
  end_frame : Int
deriving DecidableEq, Repr

/-- Modelled from the spec: the body of `ActivityEvent::IsActive` is not
under src/ (only its declaration in `EventDetector.h` line 122 is); per
spec section 4.2, "`IsActive()` reports whether the current global frame
cursor lies within the interval".  The global frame cursor is passed
explicitly here. -/
def ActivityEvent.IsActive (e : ActivityEvent) (cursor : Int) : Bool :=
  decide (e.start_frame ≤ cursor) && decide (cursor ≤ e.end_frame)

/-- Detector lifecycle states per spec section 4.2:
`Idle → Active → Closed`. -/
inductive DetectorState where
  | Idle
  | Active
  | Closed
deriving DecidableEq, Repr

/-- The documented invariant-violation errors of the detector state
machine (spec sections 4.2 and 7). -/
inductive DetectorError where
  | DoubleStart
  | DoubleEnd
  | PrematureEnd
deriving DecidableEq, Repr

/-- Modelled from the spec: the bodies of the `EndEvent` overrides
declared in `EventDetector.h` (line 42) are not under src/; per spec
section 4.2, `EndEvent` closes an `Active` detector, and "`EndEvent`
called while `Idle` is similarly a `DoubleEnd`/`PrematureEnd` error,
surfaced, not retried"; a `Closed` detector produces no further state
changes, so a second end is the `DoubleEnd` defect. -/
def EndEvent (s : DetectorState) : Except DetectorError DetectorState :=
  match s with
  | DetectorState.Idle => Except.error DetectorError.PrematureEnd
  | DetectorState.Active => Except.ok DetectorState.Closed
  | DetectorState.Closed => Except.error DetectorError.DoubleEnd

/-- Modelled from the spec: `StartEvent` (declared in `EventDetector.h`
line 38) opens an `Idle` detector; starting one that is already `Active`
is the fatal `DoubleStart` defect (spec section 4.2). -/
def StartEvent (s : DetectorState) : Except DetectorError DetectorState :=
  match s with
  | DetectorState.Idle => Except.ok DetectorState.Active
  | DetectorState.Active => Except.error DetectorError.DoubleStart
  | DetectorState.Closed => Except.error DetectorError.DoubleStart

/-- Outcome of the HTTP exchange performed inside `Box.HTTPRequest`
(Box.go lines 213-249): building the request can fail
(`http.NewRequest`), the round-trip can fail (`client.Do`), or the
exchange completes with a status code and a response body. -/
inductive HTTPOutcome where
  | newRequestError
  | transportError
  | completed (status : Nat) (body : List Nat)
deriving DecidableEq, Repr

/-- The Go `error` values surfaced by the embedded Box client paths. -/
inductive GoError where
  | requestBuildFailed
  | transportFailed
  | createFailed
  | writeFailed
deriving DecidableEq, Repr

/-- Embedding of `Box.HTTPRequest` (Box.go lines 213-249).  Returns the
log lines produced and the Go `(respBytes, err)` result: an error only
when building the request or the round-trip itself fails; once the
exchange completes, a non-200 status merely logs the URL and status
(lines 244-247) and the body is returned with a nil error (line 248). -/
def HTTPRequest (outcome : HTTPOutcome) :
    List String × Except GoError (List Nat) :=
  match outcome with
  | HTTPOutcome.newRequestError => ([], Except.error GoError.requestBuildFailed)
  | HTTPOutcome.transportError => ([], Except.error GoError.transportFailed)
  | HTTPOutcome.completed status body =>
    (if status ≠ 200 then [" >> URL    :", " >> Status :"] else [],
     Except.ok body)

/-- Embedding of `Box.DownloadFile` (Box.go lines 431-453): perform the
content request through `HTTPRequest` (propagating only its error), look
up the file name via `GetFileInfo` (whose error is discarded because
`err` is immediately reassigned at line 440), create the destination
file, write the response body to it, and return nil.  The result on
success is the created file: its path `location ++ fInfo.Name` and the
bytes written. -/
def DownloadFile (contentOutcome : HTTPOutcome) (infoName : FPath)
    (location : FPath) (createOk writeOk : Bool) :
    Except GoError (FPath × List Nat) :=
  match (HTTPRequest contentOutcome).2 with
  | Except.error e => Except.error e
  | Except.ok body =>
    if createOk then
      if writeOk then Except.ok (location ++ infoName, body)
      else Except.error GoError.writeFailed
    else Except.error GoError.createFailed

/-! ## Helper lemmas -/

theorem lexLe_total : ∀ a b : FPath, lexLe a b = true ∨ lexLe b a = true
  | [], _ => Or.inl rfl
  | _ :: _, [] => Or.inr rfl
  | a :: as, b :: bs => by
    rcases Nat.lt_trichotomy a.toNat b.toNat with h | h | h
    · exact Or.inl (by simp [lexLe, h])
    · rcases lexLe_total as bs with ih | ih
      · exact Or.inl (by simp [lexLe, h, ih])
      · exact Or.inr (by simp [lexLe, h, ih])
    · exact Or.inr (by simp [lexLe, h])

theorem lexLe_trans : ∀ a b c : FPath,
    lexLe a b = true → lexLe b c = true → lexLe a c = true
  | [], _, _, _, _ => rfl
  | _ :: _, [], _, h1, _ => absurd h1 (by simp [lexLe])
  | _ :: _, _ :: _, [], _, h2 => absurd h2 (by simp [lexLe])
  | a :: as, b :: bs, c :: cs, h1, h2 => by
    simp only [lexLe] at h1 h2 ⊢
    split at h1
    next hab =>
      split at h2
      next hbc => simp [Nat.lt_trans hab hbc]
      next hbc =>
        split at h2
        next => simp at h2
        next hcb => simp [show a.toNat < c.toNat by omega]
    next hab =>
      split at h1
      next => simp at h1
      next hba =>
        split at h2
        next hbc => simp [show a.toNat < c.toNat by omega]
        next hbc =>
          split at h2
          next => simp at h2
          next hcb =>
            have hac : ¬a.toNat < c.toNat := by omega
            have hca : ¬c.toNat < a.toNat := by omega
            simp [hac, hca, lexLe_trans as bs cs h1 h2]

theorem sortPaths_sorted (l : List FPath) : List.Sorted lexLeP (sortPaths l) := by
  haveI : IsTotal FPath lexLeP := ⟨lexLe_total⟩
  haveI : IsTrans FPath lexLeP := ⟨fun a b c => lexLe_trans a b c⟩
  exact List.sorted_insertionSort lexLeP l

theorem mem_seqIdx {m j : Nat} : j ∈ seqIdx m ↔ j % 2 = 0 ∧ j < m := by
  simp only [seqIdx, List.mem_map, List.mem_range]
  constructor
  · rintro ⟨k, hk, rfl⟩
    omega
  · rintro ⟨h2, hm⟩
    exact ⟨j / 2, by omega, by omega⟩

theorem getD_inj (files : List FPath) (hnd : files.Nodup) {a b : Nat}
    (ha : a < files.length) (hb : b < files.length)
    (h : files.getD a [] = files.getD b []) : a = b := by
  rw [List.getD_eq_getElem _ _ ha, List.getD_eq_getElem _ _ hb] at h
  exact (List.Nodup.getElem_inj_iff hnd).mp h

theorem loopRun_fixpoint (jsonFiles : List FPath) (beh : Nat → JobOutcome)
    (dir : List FPath)
    (h : batchStep jsonFiles beh dir = BatchResult.nextIter dir) :
    ∀ k, loopRun jsonFiles beh k dir = none := by
  intro k
  induction k with
  | zero => rfl
  | succ n ih => simp only [loopRun, h]; exact ih

/-! ## Claim theorems -/

/-- C7: for an `ActivityEvent` constructed with `(id = 1, start = 5,
end = 9)`, `IsActive()` returns true exactly for global frame-cursor
values in the inclusive range `[5, 9]` and false for every integer
cursor outside it. -/
theorem C7_activityEvent_isActive_iff_in_range (c : Int) :
    ActivityEvent.IsActive ⟨1, 5, 9⟩ c = true ↔ (5 ≤ c ∧ c ≤ 9) := by
  simp [ActivityEvent.IsActive]

/-- C8: calling `EndEvent` on a detector still in the `Idle` state raises
the documented invariant-violation error (`PrematureEnd`); it does not
silently return with the detector state unchanged. -/
theorem C8_endEvent_on_idle_raises :
    EndEvent DetectorState.Idle = Except.error DetectorError.PrematureEnd ∧
    ∀ s' : DetectorState, EndEvent DetectorState.Idle ≠ Except.ok s' := by
  refine ⟨rfl, fun s' h => ?_⟩
  simp [EndEvent] at h

/-- C10: `Box.HTTPRequest` returns a nil error whenever the HTTP exchange
itself completes, whatever the status code (a non-200 status is only
logged), and `DownloadFile` therefore writes whatever response body was
returned — including an API error body — to the destination file and
reports success. -/
theorem C10_httpRequest_ignores_status (status : Nat) (body : List Nat)
    (infoName location : FPath) :
    (HTTPRequest (HTTPOutcome.completed status body)).2 = Except.ok body ∧
    DownloadFile (HTTPOutcome.completed status body) infoName location
      true true = Except.ok (location ++ infoName, body) := by
  exact ⟨rfl, rfl⟩

/-- C1 (code-bug evaluation): in THREADED mode, with a batch of two
videos whose single job completes with `Success = false`, both source
files are removed anyway — the removal loop of main lines 106-109 never
consults the `Success` flag, contradicting the in-code TODO that says
processing success should be checked. -/
theorem C1_threaded_removes_despite_failure :
    (threadedBatch [pstr "static/videos/a.mp4", pstr "static/videos/b.mp4"]
        (fun _ => JobOutcome.completes false)).1 =
      [(0, JobOutcome.completes false)] ∧
    (threadedBatch [pstr "static/videos/a.mp4", pstr "static/videos/b.mp4"]
        (fun _ => JobOutcome.completes false)).2 =
      [pstr "static/videos/a.mp4", pstr "static/videos/b.mp4"] := by decide

/-- C2 (counterexample): for a batch of 5 sorted videos, neither the
sequential pairing loop nor the THREADED pairing loop uses every video
except possibly the wrap-around one (the video at index 0, which the
final pair's modulo could wrap onto) exactly once: both loops leave
videos entirely unpaired. -/
theorem C2_counterexample :
    ¬ ((∀ v ∈ videoBatch5, v = videoBatch5.getD 0 [] ∨
          (usedPaths (seqPairsOf videoBatch5)).count v = 1) ∨
       (∀ v ∈ videoBatch5, v = videoBatch5.getD 0 [] ∨
          (usedPaths (threadedPairs videoBatch5)).count v = 1)) := by decide

/-- C2 (amended): for a batch of 5 sorted videos the sequential loop
creates exactly one job, pairing videos 0 and 1, leaving videos 2-4
unassigned; the THREADED loop creates jobs (0,1) and (1,2), using video
1 twice and videos 3-4 never. -/
theorem C2_amended_coverage :
    seqPairsOf videoBatch5 = [(pstr "a.mp4", pstr "b.mp4")] ∧
    threadedPairs videoBatch5 =
      [(pstr "a.mp4", pstr "b.mp4"), (pstr "b.mp4", pstr "c.mp4")] ∧
    (usedPaths (seqPairsOf videoBatch5)).count (pstr "c.mp4") = 0 ∧
    (usedPaths (threadedPairs videoBatch5)).count (pstr "b.mp4") = 2 ∧
    (usedPaths (threadedPairs videoBatch5)).count (pstr "d.mp4") = 0 := by decide

/-- C4 (counterexample): with a batch of four videos, THREADED mode hands
`b.mp4` to both concurrently live jobs, so the pairs are not pairwise
disjoint. -/
theorem C4_counterexample :
    threadedPairs videoBatch4 =
      [(pstr "a.mp4", pstr "b.mp4"), (pstr "b.mp4", pstr "c.mp4")] ∧
    jobsDisjoint (threadedPairs videoBatch4) = false := by decide

/-- C4 (amended): the THREADED pairs are pairwise disjoint only when at
most one job is spawned (at most three videos); whenever the batch has
at least four videos, at least two jobs are spawned and job 0's second
video is exactly job 1's first video. -/
theorem C4_amended_sharing (files : List FPath) :
    (files.length ≤ 3 → jobsDisjoint (threadedPairs files) = true) ∧
    (4 ≤ files.length →
      2 ≤ (threadedPairs files).length ∧
      ((threadedPairs files).getD 0 ([], [])).2 =
        ((threadedPairs files).getD 1 ([], [])).1) := by
  constructor
  · intro h3
    have hm : files.length / 2 = 0 ∨ files.length / 2 = 1 := by omega
    rcases hm with h | h <;>
      simp [threadedPairs, jobsDisjoint, h, show List.range 1 = [0] from rfl]
  · intro h4
    have hm : 2 ≤ files.length / 2 := by omega
    have hlen : (threadedPairs files).length = files.length / 2 := by
      simp [threadedPairs]
    refine ⟨by omega, ?_⟩
    rw [List.getD_eq_getElem _ _ (by omega), List.getD_eq_getElem _ _ (by omega)]
    simp only [threadedPairs, List.getElem_map, List.getElem_range]
    have h1 : (0 + 1) % files.length = 1 := Nat.mod_eq_of_lt (by omega)
    rw [h1]

/-- C4 (amended, witness): instantiation of the sharing half on the
concrete four-video batch. -/
theorem C4_amended_sharing_witness :
    2 ≤ (threadedPairs videoBatch4).length ∧
    ((threadedPairs videoBatch4).getD 0 ([], [])).2 =
      ((threadedPairs videoBatch4).getD 1 ([], [])).1 :=
  (C4_amended_sharing videoBatch4).2 (by decide)

/-- C5 (counterexample): with artifact `DE_A1.json` present and two
videos whose paths both contain the derived identifier `A1`, main's
exclusion keeps `xA1R.mp4` in the candidate list even though its
identifier already has a corresponding artifact, while the
specification's exclusion would drop both. -/
theorem C5_counterexample :
    mainCandidates [pstr "static/video-info/DE_A1.json"]
        [pstr "static/videos/xA1L.mp4", pstr "static/videos/xA1R.mp4"] =
      some [pstr "static/videos/xA1R.mp4"] ∧
    deriveId (pstr "static/video-info/DE_A1.json") = some (pstr "A1") ∧
    containsSub (pstr "static/videos/xA1R.mp4") (pstr "A1") = true ∧
    specCandidates [pstr "static/video-info/DE_A1.json"]
        [pstr "static/videos/xA1L.mp4", pstr "static/videos/xA1R.mp4"] = [] := by
  decide

/-- C5 (amended): for each JSON artifact, main removes only the *first*
video (in list order) whose path contains the artifact's derived
identifier — at most one video per artifact — and the surviving
candidates are in lexicographic order. -/
theorem C5_amended_first_match_only (jsonFiles videoFiles cand : List FPath)
    (h : mainCandidates jsonFiles videoFiles = some cand) :
    List.Sorted lexLeP cand ∧
    ∀ ident vids,
      ((∀ v ∈ vids, containsSub v ident = false) ∧
        eraseFirstMatching ident vids = vids) ∨
      (∃ pre v post, vids = pre ++ v :: post ∧
        (∀ u ∈ pre, containsSub u ident = false) ∧
        containsSub v ident = true ∧
        eraseFirstMatching ident vids = pre ++ post) := by
  constructor
  · rcases hx : excludeProcessed jsonFiles (sortPaths videoFiles) with _ | v
    · simp [mainCandidates, hx] at h
    · simp only [mainCandidates, hx, Option.map_some', Option.some.injEq] at h
      subst h
      exact sortPaths_sorted v
  · intro ident vids
    induction vids with
    | nil => exact Or.inl ⟨by simp, rfl⟩
    | cons v vs ih =>
      by_cases hv : containsSub v ident = true
      · exact Or.inr ⟨[], v, vs, rfl, by simp, hv,
          by simp [eraseFirstMatching, hv]⟩
      · have hv' : containsSub v ident = false := by
          simpa using hv
        rcases ih with ⟨hall, heq⟩ | ⟨pre, w, post, heq, hpre, hw, hres⟩
        · refine Or.inl ⟨?_, by simp [eraseFirstMatching, hv', heq]⟩
          intro u hu
          rcases List.mem_cons.mp hu with rfl | hu
          · exact hv'
          · exact hall u hu
        · refine Or.inr ⟨v :: pre, w, post, by simp [heq], ?_, hw,
            by simp [eraseFirstMatching, hv', hres]⟩
          intro u hu
          rcases List.mem_cons.mp hu with rfl | hu
          · exact hv'
          · exact hpre u hu

/-- C5 (amended, witness): the candidate list of the concrete
counterexample run is lexicographically sorted. -/
theorem C5_amended_first_match_only_witness :
    List.Sorted lexLeP [pstr "static/videos/xA1R.mp4"] :=
  (C5_amended_first_match_only [pstr "static/video-info/DE_A1.json"]
    [pstr "static/videos/xA1L.mp4", pstr "static/videos/xA1R.mp4"]
    [pstr "static/videos/xA1R.mp4"] (by decide)).1

/-- C6: in THREADED mode the batch trace splits into a removal-free part
followed by a removals-only part, and the join of every spawned thread
lies in the removal-free part: no source-file removal is performed until
every thread spawned for the batch has been joined. -/
theorem C6_removals_after_all_joins (files : List FPath) :
    ∃ pre rems, threadedTrace files = pre ++ rems ∧
      (∀ e ∈ pre, isRemoveEvent e = false) ∧
      (∀ e ∈ rems, isRemoveEvent e = true) ∧
      (∀ i, ThreadEvent.spawn i ∈ pre → ThreadEvent.join i ∈ pre) := by
  refine ⟨((List.range (files.length / 2)).map ThreadEvent.spawn) ++
          ((List.range (files.length / 2)).map ThreadEvent.join),
          (if 1 < files.length then files.map ThreadEvent.removeFile else []),
          rfl, ?_, ?_, ?_⟩
  · intro e he
    rcases List.mem_append.mp he with h | h <;>
      · obtain ⟨i, _, rfl⟩ := List.mem_map.mp h
        rfl
  · intro e he
    split at he
    · obtain ⟨p, _, rfl⟩ := List.mem_map.mp he
      rfl
    · simp at he
  · intro i hi
    rcases List.mem_append.mp hi with h | h
    · obtain ⟨j, hj, hje⟩ := List.mem_map.mp h
      cases hje
      exact List.mem_append.mpr (Or.inr (List.mem_map.mpr ⟨_, hj, rfl⟩))
    · obtain ⟨j, hj, hje⟩ := List.mem_map.mp h
      cases hje

/-- C9 (counterexample): a directory holding a single leftover video is
rescanned forever — the batch loop never reaches the no-remaining-videos
exit, because a one-video batch runs zero jobs and deletes nothing. -/
theorem C9_counterexample :
    ¬ reachesEmpty [] behAllSuccess [pstr "static/videos/leftover.mp4"] := by
  rintro ⟨k, hk⟩
  rw [loopRun_fixpoint [] behAllSuccess _ (by decide) k] at hk
  cases hk

/-- C9 (amended): the do-while batch loop does not terminate for every
finite input set: whenever an iteration leaves the non-empty video
directory unchanged (a failed job retaining its sources, or leftover
videos never selected by the pairing loop's index bound), the loop
rescans the same files forever instead of reaching the empty state. -/
theorem C9_amended_nonterminating (jsonFiles : List FPath)
    (beh : Nat → JobOutcome) (dir : List FPath)
    (h : batchStep jsonFiles beh dir = BatchResult.nextIter dir) :
    ¬ loopExits jsonFiles beh dir := by
  rintro ⟨k, r, hk⟩
  rw [loopRun_fixpoint jsonFiles beh dir h k] at hk
  cases hk

/-- C9 (amended, witness): the loop never stops iterating on a directory
holding exactly one video. -/
theorem C9_amended_nonterminating_witness :
    ¬ loopExits [] behAllSuccess [pstr "static/videos/a.mp4"] :=
  C9_amended_nonterminating [] behAllSuccess [pstr "static/videos/a.mp4"]
    (by decide)

/-- C3: in the sequential batch loop, a job whose `Processor` run throws
is recorded with its own (unsuccessful) outcome, neither of its two
source files appears among the batch's removals, every pair index of the
batch is still processed in the same order, and every sibling job's
recorded outcome and removals are unaffected by the failing job's
behavior. -/
theorem C3_sequential_failure_isolated
    (files : List FPath) (beh beh' : Nat → JobOutcome) (i : Nat)
    (hthrow : beh i = JobOutcome.throws)
    (hagree : ∀ j, j ≠ i → beh' j = beh j)
    (hnd : files.Nodup)
    (hproc : i ∈ seqIdx (files.length / 2)) :
    (i, JobOutcome.throws) ∈ (seqRun files beh).1 ∧
    (∀ s, s ∈ pairFiles files i → s ∉ (seqRun files beh).2) ∧
    (seqRun files beh).1.map Prod.fst = (seqRun files beh').1.map Prod.fst ∧
    (∀ j o, j ≠ i →
      ((j, o) ∈ (seqRun files beh).1 ↔ (j, o) ∈ (seqRun files beh').1)) ∧
    (∀ j, j ≠ i → delAt files beh j = delAt files beh' j) := by
  obtain ⟨hieven, hilt⟩ := mem_seqIdx.mp hproc
  have hn2 : 2 ≤ files.length := by omega
  have hi1 : i + 1 < files.length := by omega
  refine ⟨?_, ?_, ?_, ?_, ?_⟩
  · exact List.mem_map.mpr ⟨i, hproc, by rw [hthrow]⟩
  · intro s hs hmem
    obtain ⟨j, hj, hsj⟩ := List.mem_flatMap.mp hmem
    obtain ⟨hjeven, hjlt⟩ := mem_seqIdx.mp hj
    cases hbj : beh j with
    | throws => simp [delAt, hbj] at hsj
    | completes success =>
      cases success with
      | false => simp [delAt, hbj] at hsj
      | true =>
        have hji : j ≠ i := fun he => by rw [he, hthrow] at hbj; cases hbj
        have hj1 : j + 1 < files.length := by omega
        rw [delAt, hbj] at hsj
        simp only [pairFiles, Nat.mod_eq_of_lt hi1, List.mem_cons,
          List.not_mem_nil, or_false] at hs
        simp only [pairFiles, Nat.mod_eq_of_lt hj1, List.mem_cons,
          List.not_mem_nil, or_false] at hsj
        rcases hs with rfl | rfl <;> rcases hsj with h | h <;>
          exact absurd (getD_inj files hnd (by omega) (by omega) h) (by omega)
  · simp [seqRun, List.map_map, Function.comp]
  · intro j o hj
    simp only [seqRun, List.mem_map]
    constructor
    · rintro ⟨a, ha, hae⟩
      simp only [Prod.mk.injEq] at hae
      obtain ⟨rfl, ho⟩ := hae
      exact ⟨a, ha, by rw [hagree a hj, ho]⟩
    · rintro ⟨a, ha, hae⟩
      simp only [Prod.mk.injEq] at hae
      obtain ⟨rfl, ho⟩ := hae
      exact ⟨a, ha, by rw [← hagree a hj, ho]⟩
  · intro j hj
    simp [delAt, hagree j hj]

/-- C3 (witness): in the concrete four-video batch whose first job
throws, that job is recorded as thrown. -/
theorem C3_sequential_failure_isolated_witness :
    (0, JobOutcome.throws) ∈ (seqRun videoBatch4 behFailFirst).1 :=
  (C3_sequential_failure_isolated videoBatch4 behFailFirst behAllSuccess 0
    (by decide) (fun j hj => by simp [behAllSuccess, behFailFirst, hj])
    (by decide) (by decide)).1
